import Mathlib

/-!
Shallow embedding of `src/epic_scraper/epicfileimport/epic_module.py`.

The sampling functions of the module process time-indexed single-data-column
tables (pandas DataFrames whose index is the `Date` column); `resampling`
only reaches them for tables with fewer than 3 columns, i.e. one data column
next to the `Date` index, so a table is embedded as a `List (Nat × ℚ)` of
(timestamp, value) rows.  Timestamp-label alignment in pandas
(`pd.merge ... on='Date'`, `df.join`) is modelled by an explicit join on the
timestamp component; boolean-mask `.loc` selection is modelled positionally,
which agrees with pandas on tables with distinct labels (pandas refuses to
align boolean masks over duplicate labels).  The growth-event extractor
`growth_time` works on the categorical event table (`Date` index plus
`CallerID`, `Message`, `Color` columns), embedded as a list of
(timestamp, caller, message, color) rows; its free-text splitting is
embedded by executable character-list functions mirroring Python's
`in`-containment and `str.split`.
-/

/-- One row of a single-data-column time-indexed table: (timestamp, value). -/
abbrev Row : Type := Nat × ℚ

/-- The pandas/numpy `.round(1)` of the source, on exact rationals: round to
one decimal place.  numpy rounds half to even on binary64 values; every
`.round(1)` call in the source is applied after `abs`, and on the binary64
values the source produces, exact decimal ties (such as `1.05 - 1`, whose
binary64 value is strictly greater than `0.05`) carry representation error
that makes numpy round them upward, so rounding half away from zero on exact
rationals reproduces the binary64 comparisons of this development. -/
def round1 (x : ℚ) : ℚ :=
  (⌊x * 10 + 1 / 2⌋ : ℚ) / 10

/-- The column `df.pct_change()`: the first entry is NaN (`none`), entry
`i > 0` is `v_i / v_{i-1} - 1` (pandas computes `div` and then subtracts 1). -/
def pct_changes (vs : List ℚ) : List (Option ℚ) :=
  none :: List.zipWith (fun a b => some (b / a - 1)) vs vs.tail

/-- The column `df.diff()`: the first entry is NaN (`none`), entry `i > 0`
is `v_i - v_{i-1}`. -/
def diff_changes (vs : List ℚ) : List (Option ℚ) :=
  none :: List.zipWith (fun a b => some (b - a)) vs vs.tail

/-- The change column used by `threshold_sampling`, selected by the mode
string exactly as the Python `if change == 'relative'`. -/
def changesOf (df : List Row) (change : String) : List (Option ℚ) :=
  if change = "relative" then pct_changes (df.map Prod.snd)
  else diff_changes (df.map Prod.snd)

/-- The direct (option-free) change of row `i > 0` against row `i - 1`, used
to state row-level properties of `threshold_sampling`. -/
def rowChange (df : List Row) (change : String) (i : Nat) : ℚ :=
  let vs := df.map Prod.snd
  if change = "relative" then vs.getD i 0 / vs.getD (i - 1) 0 - 1
  else vs.getD i 0 - vs.getD (i - 1) 0

/-- Embedding of `threshold_sampling(df, change, threshold_value=0.01)`.

It mirrors the pandas pipeline of the source: merge the table with its
change column (`pd.merge(df.reset_index(), df.pct_change().reset_index(),
on=['Date'])`, positionally a zip for distinct timestamps), keep the rows
whose change is not zero (`.loc[(df.pct_change() != 0).any(axis=1)]`; pandas
evaluates `NaN != 0` to True, so row 0 passes), fill the NaN change of row 0
with `threshold_value + 1` (`.fillna(threshold_value + 1)`), keep the rows
whose change column is at least `threshold_value`
(`df[df.iloc[:, 1] >= threshold_value]`, a signed comparison in the source),
and finally drop the change column and restore the column names. -/
def threshold_sampling (df : List Row) (change : String)
    (threshold_value : ℚ := 1 / 100) : List Row :=
  let merged := df.zip (changesOf df change)
  let masked := merged.filter (fun rc => rc.2 ≠ some 0)
  let filled := masked.map (fun rc => (rc.1, rc.2.getD (threshold_value + 1)))
  let kept := filled.filter (fun rc => threshold_value ≤ rc.2)
  kept.map Prod.fst

/-- The row-level retention test that the `threshold_sampling` pipeline
implements: row 0 (NaN change) is always kept, and a row with change `c` is
kept when `c` is non-zero and, signed, at least the threshold. -/
def keepRow (threshold_value : ℚ) : Option ℚ → Bool
  | none => true
  | some c => decide (c ≠ 0) && decide (threshold_value ≤ c)

/-- Value of the float comparison quantity computed inside the loop of
`accumulated_sampling`, which binary64 division can make NaN or infinite:
`pct_change` at a zero baseline divides by zero, giving NaN for `0/0` and a
signed infinity otherwise, and `abs`, `.round(1)` and `* 100` keep NaN as
NaN and infinity as positive infinity. -/
inductive CondVal where
  | nan : CondVal
  | inf : CondVal
  | fin : ℚ → CondVal
deriving DecidableEq

/-- The comparison `condition >= threshold_value` of the source under IEEE
semantics: NaN compares False against everything, positive infinity is at
least any threshold, and a finite value compares as a rational. -/
def CondVal.ge (c : CondVal) (threshold_value : ℚ) : Bool :=
  match c with
  | CondVal.nan => false
  | CondVal.inf => true
  | CondVal.fin q => decide (threshold_value ≤ q)

/-- The comparison value computed inside the loop of `accumulated_sampling`:
`abs(pd.Series([last, cur]).pct_change()[1]).round(1) * 100` in relative
mode, `abs(pd.Series([last, cur]).diff()[1]).round(1)` otherwise.  In
relative mode a zero baseline makes `pct_change` divide by zero: `0/0`
yields NaN and any other numerator a signed infinity, which `abs` turns
positive; otherwise the value is finite and exact. -/
def acc_condition (change : String) (lastv curv : ℚ) : CondVal :=
  if change = "relative" then
    if lastv = 0 then (if curv = 0 then CondVal.nan else CondVal.inf)
    else CondVal.fin (round1 |curv / lastv - 1| * 100)
  else CondVal.fin (round1 |curv - lastv|)

/-- Embedding of `accumulated_sampling(df, change, threshold_value)`.

Empty tables are returned unchanged (`if df.empty != True`).  Otherwise
`dataframe_change` is seeded with row 0 (`df.iloc[[0]]`) and the loop
`for j in range(len(df))` appends row `j` whenever the rounded change of
`df.iloc[j, 0]` against the last row of `dataframe_change` reaches
`threshold_value` (under IEEE comparison semantics: a NaN change never
does, an infinite change always does).  The tail of the Python function
joins `dataframe_change`
back onto `df` over the timestamp index (`df.join` after `add_suffix`),
drops the original value column, renames the `_change` column back and drops
the unmatched rows (`dropna`); the net effect, modelled here, is one output
row `(t, v')` for every input row with timestamp `t` and every retained row
`(t, v')` carrying the same timestamp. -/
def accumulated_sampling (df : List Row) (change : String)
    (threshold_value : ℚ) : List Row :=
  match df with
  | [] => []
  | r0 :: tl =>
    let df := r0 :: tl
    let dataframe_change := df.foldl
      (fun acc row =>
        if (acc_condition change ((acc.getLastD (0, 0)).2) row.2).ge threshold_value
        then acc ++ [row] else acc)
      [r0]
    df.flatMap (fun r =>
      dataframe_change.filterMap (fun r' =>
        if r'.1 = r.1 then some (r.1, r'.2) else none))

/-- Decision of whether one character list starts with another; building
block for the substring test. -/
def listHasPrefix : List Char → List Char → Bool
  | _, [] => true
  | [], _ :: _ => false
  | c :: s, d :: p => c = d && listHasPrefix s p

/-- Decision of whether the second character list occurs inside the first;
building block for the substring test. -/
def listHasSubstr : List Char → List Char → Bool
  | [], p => p.isEmpty
  | s@(_ :: t), p => listHasPrefix s p || listHasSubstr t p

/-- Python's substring containment (`'moved from' in message`, pandas
`.str.contains(...)`, `DataFrame.filter(regex=...)` on a literal pattern). -/
def hasSubstr (s pat : String) : Bool :=
  listHasSubstr s.data pat.data

/-- Splitting a character list at every occurrence of a separator, with an
explicit structural fuel so that the function evaluates by rewriting; the
fuel is instantiated with the length of the list, which suffices because
every step consumes at least one character. -/
def splitOnFuel (sep : List Char) : Nat → List Char → List Char → List (List Char)
  | 0, acc, rest => [acc.reverse ++ rest]
  | _ + 1, acc, [] => [acc.reverse]
  | n + 1, acc, c :: rest =>
    if listHasPrefix (c :: rest) sep then
      acc.reverse :: splitOnFuel sep n [] (List.drop (sep.length - 1) rest)
    else splitOnFuel sep n (c :: acc) rest

/-- Python's `str.split(sep)` on character lists. -/
def splitOnL (s sep : List Char) : List (List Char) :=
  if sep.isEmpty then [s] else splitOnFuel sep s.length [] s

/-- Python's `str.split(sep)` (pandas `.str.split(sep, expand=True)`). -/
def strSplitOn (s sep : String) : List String :=
  (splitOnL s.data sep.data).map (fun l => ⟨l⟩)

/-- The two sequential splits of `growth_time`:
`df['Message'].str.split(' moved from ', expand=True)` into object and rest,
then `.str.split(' to ', expand=True)` of the rest into the from- and
to-locations.  The well-formed messages the source expects produce exactly
two pieces per split; the embedding takes pieces 0 and 1 accordingly. -/
def splitObjectFromTo (m : String) : String × String × String :=
  let parts := strSplitOn m " moved from "
  let object := parts.headD ""
  let rest := parts.getD 1 ""
  let parts2 := strSplitOn rest " to "
  (object, parts2.headD "", parts2.getD 1 "")

/-- The distinct values of a column in first-occurrence order, as
`pandas.Series.value_counts` groups them. -/
def uniqueKeys (l : List String) : List String :=
  l.foldl (fun acc a => if acc.contains a then acc else acc ++ [a]) []

/-- Stable insertion into a list sorted by strictly descending count. -/
def insertByCount (a : String × Nat) : List (String × Nat) → List (String × Nat)
  | [] => [a]
  | b :: l => if b.2 < a.2 then a :: b :: l else b :: insertByCount a l

/-- Stable sort by descending count, modelling the descending order of
`pandas.Series.value_counts` (ties keep first-occurrence order). -/
def sortByCountDesc (l : List (String × Nat)) : List (String × Nat) :=
  l.foldl (fun acc a => insertByCount a acc) []

/-- `df['object'].value_counts()`: occurrence counts of the object column,
sorted by descending count. -/
def value_counts (objs : List String) : List (String × Nat) :=
  sortByCountDesc ((uniqueKeys objs).map (fun k => (k, objs.countP (fun o => o = k))))

/-- The start/end timestamp pairs printed by the even-length branch of
`growth_time`: `for i in range(0, len(df.index), 2)` reports
`(df.index[i], df.index[i+1])`. -/
def pairBoundaries : List (Nat × String × String × String) → List (Nat × Nat)
  | a :: b :: rest => (a.1, b.1) :: pairBoundaries rest
  | _ => []

/-- Status message of the empty-after-filtering branch of `growth_time`. -/
def noGrowthMsg : String := "No growth detected."

/-- Status message of the duplicate-name branch of `growth_time`. -/
def dupNameMsg : String :=
  "Error: You use the same name for different growth events! Please use unique names for each growth event."

/-- Status message of the unmatched-counts branch of `growth_time`. -/
def unmatchedMsg : String :=
  "The number of growth events is not equal to the number of start and end of the growth events!"

/-- Status message of the two-row branch of `growth_time`. -/
def singleGrowthMsg : String := "Single Growth detected."

/-- The error raised when `print(df.grow)` runs although no branch of
`growth_time` assigned the `grow` attribute. -/
def attrErrMsg : String := "AttributeError: 'DataFrame' object has no attribute 'grow'"

/-- The diagnostic assigned by `resampling` when a series has no
message-like column. -/
def noMessageMsg : String :=
  "Error: No Message log detected, can not determine the number of growth events and the start and end of the growth!"

/-- Status message of the even-length branch of `growth_time`:
`str(df['object'].value_counts()[0])` (the first, i.e. largest, count) plus
the comma-joined object names. -/
def multiGrowthMsg (counts : List (String × Nat)) : String :=
  toString (counts.headD ("", 0)).2 ++ " growths detected with the names "
    ++ String.intercalate "," (counts.map Prod.fst) ++ "."

/-- Result of a `growth_time` run that terminated: the parsed
(timestamp, object, from, to) table, the final value of the `grow` status
attribute, and the start/end timestamp pairs reported on standard output. -/
structure GrowthResult where
  table : List (Nat × String × String × String)
  grow : String
  boundaries : List (Nat × Nat)
deriving DecidableEq

/-- Embedding of `growth_time(df)`.

The input is a categorical event table of (timestamp, CallerID, Message,
Color) rows; the function first drops the CallerID and Color columns
(`df.drop(df.columns[[0, 2]], ...)`).  The `grow` attribute is modelled as
an optional status that the branches may assign; the unconditional final
`print(df.grow)` of the source raises an `AttributeError` whenever no branch
assigned it, which the embedding returns as `Except.error`.  Branches:
if no message contains `'moved from'`, nothing is assigned and the final
print raises; otherwise the rows are filtered to the `'moved from'` ones and
the `'Mirror'` ones are removed; an empty remainder assigns the no-growth
status; otherwise the messages are split into (object, from, to), the object
counts are taken, and the count checks assign the duplicate-name or
unmatched-counts errors, or (all counts equal to 2) the `len == 2` branch
assigns the single-growth status and the even-length branch then overwrites
it with the counted message; both report their boundary timestamps. -/
def growth_time (df0 : List (Nat × String × String × String)) :
    Except String GrowthResult :=
  let df : List (Nat × String) := df0.map (fun r => (r.1, r.2.2.1))
  if df.any (fun r => hasSubstr r.2 "moved from") then
    let df1 := df.filter (fun r => hasSubstr r.2 "moved from")
    let df2 := df1.filter (fun r => ! hasSubstr r.2 "Mirror")
    if ! df2.isEmpty then
      let rows := df2.map (fun r => (r.1, splitObjectFromTo r.2))
      let counts := value_counts (rows.map (fun r => r.2.1))
      if counts.any (fun kc => kc.2 ≠ 2) then
        if counts.any (fun kc => 1 < kc.2) then
          Except.ok ⟨rows, dupNameMsg, []⟩
        else
          Except.ok ⟨rows, unmatchedMsg, []⟩
      else
        let st1 : Option String × List (Nat × Nat) :=
          if rows.length = 2 then
            (some singleGrowthMsg,
              [((rows.headD (0, "", "", "")).1, (rows.getLastD (0, "", "", "")).1)])
          else (none, [])
        let st2 : Option String × List (Nat × Nat) :=
          if rows.length % 2 = 0 then
            (some (multiGrowthMsg counts), st1.2 ++ pairBoundaries rows)
          else st1
        match st2.1 with
        | some g => Except.ok ⟨rows, g, st2.2⟩
        | none => Except.error attrErrMsg
    else
      Except.ok ⟨[], noGrowthMsg, []⟩
  else Except.error attrErrMsg

/-- One imported log table with the metadata that the source piggybacks on
the DataFrame object: the non-index column names, the numeric payload (for
the one-data-column series the samplers process), the categorical event
payload (for the Message series `growth_time` processes), and the `grow`,
`comment` and `name` attributes. -/
structure Series where
  cols : List String
  data : List Row
  events : List (Nat × String × String × String)
  grow : Option String
  comment : String
  name : String
deriving DecidableEq

/-- The pressure classification of `resampling`:
`dataframe_list[i].filter(regex='IG|MIG|PG')` finds a column. -/
def pressure_like (cols : List String) : Bool :=
  cols.any (fun c => hasSubstr c "IG" || hasSubstr c "MIG" || hasSubstr c "PG")

/-- The temperature classification of `resampling`:
`dataframe_list[i].filter(regex='PID|Pyro')` finds a column. -/
def temperature_like (cols : List String) : Bool :=
  cols.any (fun c => hasSubstr c "PID" || hasSubstr c "Pyro")

/-- The message classification of `resampling`:
`dataframe_list[i].filter(regex='Message')` finds a column. -/
def has_message_col (cols : List String) : Bool :=
  cols.any (fun c => hasSubstr c "Message")

/-- The change-based sampling step of `resampling` (lines 184-211, the
default `resample_method='diff'` branch): for a series with fewer than 3
columns, a pressure-like series runs `threshold_sampling(..., 'relative')`
(the threshold argument is omitted in the source, so the default applies)
followed by `accumulated_sampling(..., 'relative', percent_cut)`, and a
temperature-like series likewise with `'absolute'` and `value_cut`. -/
def diff_sample (percent_cut value_cut : ℚ) (s : Series) : Series :=
  if s.cols.length < 3 then
    let s1 :=
      if pressure_like s.cols then
        let d1 :=
          accumulated_sampling (threshold_sampling s.data "relative")
            "relative" percent_cut
        { s with data := d1 }
      else s
    if temperature_like s1.cols then
      let d2 :=
        accumulated_sampling (threshold_sampling s1.data "absolute")
          "absolute" value_cut
      { s1 with data := d2 }
    else s1
  else s

/-- The `dataframe_list[i] = growth_time(dataframe_list[i])` step of
`resampling`: the series payload is replaced by the parsed growth table and
the resulting `grow` status is attached; an exception propagates. -/
def apply_growth (s : Series) : Except String Series :=
  (growth_time s.events).map (fun g => { s with events := g.table, grow := some g.grow })

/-- The loop body of `resampling` over the series indices, with the list
length as structural fuel (the Python `for i in range(len(dataframe_list))`
fixes the range up front, and every step preserves the length).  Iteration
`i` samples the series (`diff` mode), then either runs `growth_time` on it
when it has a message-like column, or assigns the no-message diagnostic to
`dataframe_list[-1]` — the last series of the list — and finally restores
the `comment` and `name` attributes of series `i`. -/
def resampling_go (percent_cut value_cut : ℚ) :
    Nat → List Series → Nat → Except String (List Series)
  | 0, l, _ => Except.ok l
  | fuel + 1, l, i =>
    if h : i < l.length then
      let s0 := l[i]
      let s1 := diff_sample percent_cut value_cut s0
      let l1 := l.set i s1
      let step : Except String (List Series) :=
        if has_message_col s1.cols then
          (apply_growth s1).map (fun s2 => l1.set i s2)
        else
          Except.ok (l1.set (l1.length - 1)
            { l1.getLastD s1 with grow := some noMessageMsg })
      match step with
      | Except.error e => Except.error e
      | Except.ok l2 =>
        let l3 := l2.set i
          { l2.getD i s1 with comment := s0.comment, name := s0.name }
        resampling_go percent_cut value_cut fuel l3 (i + 1)
    else Except.ok l

/-- Embedding of `resampling(dataframe_list, percent_cut, value_cut, ...)`
in its default change-based mode (`resample_method='diff'`; the time-based
`else` branch is a direct call into the pandas resampling primitive and is
not modelled). -/
def resampling (dataframe_list : List Series) (percent_cut value_cut : ℚ) :
    Except String (List Series) :=
  resampling_go percent_cut value_cut dataframe_list.length dataframe_list 0

/-- The merge/mask/fill/filter/drop pipeline of `threshold_sampling` is a
single filter by `keepRow`. -/
theorem threshold_pipeline_eq (L : List (Row × Option ℚ)) (t : ℚ) :
    (((L.filter (fun rc => rc.2 ≠ some 0)).map
        (fun rc => (rc.1, rc.2.getD (t + 1)))).filter
          (fun rc => t ≤ rc.2)).map Prod.fst
      = (L.filter (fun rc => keepRow t rc.2)).map Prod.fst := by
  rw [List.filter_map, List.map_map]
  rw [show Prod.fst ∘ (fun rc : Row × Option ℚ => (rc.1, rc.2.getD (t + 1)))
        = Prod.fst from rfl]
  rw [List.filter_filter]
  apply congrArg (List.map Prod.fst)
  apply List.filter_congr
  intro a _
  rcases a with ⟨r, _ | c⟩
  · simp only [keepRow, Function.comp]
    simp
  · simp [keepRow, Function.comp, Bool.and_comm]

/-- `threshold_sampling` retains exactly the rows passing `keepRow`. -/
theorem threshold_sampling_eq_filter (df : List Row) (change : String) (t : ℚ) :
    threshold_sampling df change t
      = ((df.zip (changesOf df change)).filter
          (fun rc => keepRow t rc.2)).map Prod.fst :=
  threshold_pipeline_eq (df.zip (changesOf df change)) t

/-- On a non-empty table the change column has one entry per row. -/
theorem changesOf_length (df : List Row) (change : String) (h : df ≠ []) :
    (changesOf df change).length = df.length := by
  rcases df with _ | ⟨r, tl⟩
  · exact absurd rfl h
  · unfold changesOf pct_changes diff_changes
    split <;> simp [List.length_zipWith]

/-- Entry `i > 0` of the change column is the change of row `i` against
row `i - 1`. -/
theorem changesOf_getElem (df : List Row) (change : String) (i : Nat)
    (h0 : 0 < i) (hi : i < df.length)
    (hlen : i < (changesOf df change).length) :
    (changesOf df change)[i] = some (rowChange df change i) := by
  obtain ⟨j, rfl⟩ : ∃ j, i = j + 1 := ⟨i - 1, (Nat.succ_pred_eq_of_pos h0).symm⟩
  have hj : j + 1 < (df.map Prod.snd).length := by simpa using hi
  have hj' : j < (df.map Prod.snd).tail.length := by
    simp [List.length_tail]
    omega
  have hj'' : j < (df.map Prod.snd).length := by omega
  by_cases hch : change = "relative"
  · simp only [changesOf, rowChange, if_pos hch] at hlen ⊢
    unfold pct_changes at hlen ⊢
    rw [List.getElem_cons_succ, List.getElem_zipWith]
    rw [List.getElem_tail]
    congr 1
    simp only [Nat.add_sub_cancel]
    rw [List.getD_eq_getElem _ _ hj, List.getD_eq_getElem _ _ hj'']
  · simp only [changesOf, rowChange, if_neg hch] at hlen ⊢
    unfold diff_changes at hlen ⊢
    rw [List.getElem_cons_succ, List.getElem_zipWith]
    rw [List.getElem_tail]
    congr 1
    simp only [Nat.add_sub_cancel]
    rw [List.getD_eq_getElem _ _ hj, List.getD_eq_getElem _ _ hj'']

/-- C1 (amended): in `threshold_sampling`, for every table with distinct
timestamps and every row index i greater than 0, row i is retained if and
only if its change against row i-1 is non-zero and the signed (not
absolute) change is at least the threshold; a large negative change is
dropped. -/
theorem threshold_sampling_retention_iff (df : List Row) (change : String)
    (t : ℚ) (i : Nat) (h0 : 0 < i) (hi : i < df.length)
    (hnd : (df.map Prod.fst).Nodup) :
    df[i] ∈ threshold_sampling df change t ↔
      rowChange df change i ≠ 0 ∧ t ≤ rowChange df change i := by
  have hne : df ≠ [] := by
    intro h
    rw [h] at hi
    simp at hi
  have hclen : (changesOf df change).length = df.length :=
    changesOf_length df change hne
  have hzlen : (df.zip (changesOf df change)).length = df.length := by
    simp [List.length_zip, hclen]
  have hic : i < (changesOf df change).length := by omega
  have hiz : i < (df.zip (changesOf df change)).length := by omega
  rw [threshold_sampling_eq_filter]
  constructor
  · intro hmem
    rw [List.mem_map] at hmem
    obtain ⟨rc, hrc, hfst⟩ := hmem
    rw [List.mem_filter] at hrc
    obtain ⟨hrcmem, hkeep⟩ := hrc
    rw [List.mem_iff_getElem] at hrcmem
    obtain ⟨j, hj, hjeq⟩ := hrcmem
    have hj' : j < df.length := by omega
    have hjc : j < (changesOf df change).length := by omega
    rw [List.getElem_zip] at hjeq
    have hrow : df[j] = df[i] := by
      rw [← hjeq] at hfst
      simpa using hfst
    have hji : j = i := by
      have hmi : i < (df.map Prod.fst).length := by simpa using hi
      have hmj : j < (df.map Prod.fst).length := by simpa using hj'
      refine (@List.Nodup.getElem_inj_iff _ (df.map Prod.fst) hnd j hmj i hmi).mp ?_
      rw [List.getElem_map, List.getElem_map, hrow]
    subst hji
    rw [← hjeq] at hkeep
    rw [changesOf_getElem df change j h0 hj' hjc] at hkeep
    simp only [keepRow, Bool.and_eq_true, decide_eq_true_eq] at hkeep
    exact hkeep
  · intro hcond
    rw [List.mem_map]
    refine ⟨(df.zip (changesOf df change))[i], ?_, ?_⟩
    · rw [List.mem_filter]
      constructor
      · exact List.getElem_mem hiz
      · rw [List.getElem_zip]
        simp only []
        rw [changesOf_getElem df change i h0 hi hic]
        simp only [keepRow, Bool.and_eq_true, decide_eq_true_eq]
        exact hcond
    · rw [List.getElem_zip]

/-- Filtering with a stronger test never yields more rows. -/
theorem length_filter_mono {α : Type} (l : List α) (p q : α → Bool)
    (h : ∀ a ∈ l, p a = true → q a = true) :
    (l.filter p).length ≤ (l.filter q).length := by
  induction l with
  | nil => simp
  | cons a u ih =>
    have ih' := ih (fun x hx => h x (List.mem_cons_of_mem a hx))
    simp only [List.filter_cons]
    by_cases hp : p a = true
    · rw [if_pos hp, if_pos (h a (List.mem_cons_self a u) hp)]
      simpa using ih'
    · rw [if_neg hp]
      split
      · exact le_trans ih' (by simp)
      · exact ih'

/-- C8: for every strictly monotonic input series and thresholds t1 ≤ t2,
the threshold sampler with threshold t2 retains at most as many rows as
with t1. -/
theorem threshold_sampling_monotone (df : List Row) (change : String)
    (t1 t2 : ℚ)
    (_hmono : List.Chain' (fun a b : Row => a.2 < b.2) df
      ∨ List.Chain' (fun a b : Row => b.2 < a.2) df)
    (ht : t1 ≤ t2) :
    (threshold_sampling df change t2).length
      ≤ (threshold_sampling df change t1).length := by
  rw [threshold_sampling_eq_filter, threshold_sampling_eq_filter]
  rw [List.length_map, List.length_map]
  apply length_filter_mono
  intro a _ hp
  rcases a with ⟨r, _ | c⟩
  · rfl
  · simp only [keepRow, Bool.and_eq_true, decide_eq_true_eq] at hp ⊢
    exact ⟨hp.1, le_trans ht hp.2⟩

/-- C8 witness: a strictly increasing two-row series with thresholds 0 ≤ 1. -/
theorem threshold_sampling_monotone_witness :
    ((List.Chain' (fun a b : Row => a.2 < b.2) [((0 : Nat), (1 : ℚ)), (1, 2)]
        ∨ List.Chain' (fun a b : Row => b.2 < a.2) [((0 : Nat), (1 : ℚ)), (1, 2)])
      ∧ (0 : ℚ) ≤ 1)
    ∧ (threshold_sampling [((0 : Nat), (1 : ℚ)), (1, 2)] "absolute" 1).length
        ≤ (threshold_sampling [((0 : Nat), (1 : ℚ)), (1, 2)] "absolute" 0).length :=
  ⟨⟨Or.inl (by simp [List.chain'_cons]), by norm_num⟩,
    threshold_sampling_monotone [((0 : Nat), (1 : ℚ)), (1, 2)] "absolute" 0 1
      (Or.inl (by simp [List.chain'_cons])) (by norm_num)⟩

/-- C1 witness: at the table [(0,10),(1,11)] in absolute mode with the
default threshold, row 1 (change +1) is retained, as the amended
equivalence states. -/
theorem threshold_sampling_retention_iff_witness :
    (0 < 1 ∧ 1 < ([((0 : Nat), (10 : ℚ)), (1, 11)] : List Row).length
      ∧ (([((0 : Nat), (10 : ℚ)), (1, 11)] : List Row).map Prod.fst).Nodup)
    ∧ (([((0 : Nat), (10 : ℚ)), (1, 11)] : List Row)[1]
        ∈ threshold_sampling [((0 : Nat), (10 : ℚ)), (1, 11)] "absolute" (1 / 100)
      ↔ rowChange [((0 : Nat), (10 : ℚ)), (1, 11)] "absolute" 1 ≠ 0
        ∧ (1 : ℚ) / 100 ≤ rowChange [((0 : Nat), (10 : ℚ)), (1, 11)] "absolute" 1) :=
  ⟨⟨by decide, by decide, by decide⟩,
    threshold_sampling_retention_iff [((0 : Nat), (10 : ℚ)), (1, 11)] "absolute"
      (1 / 100) 1 (by decide) (by decide) (by decide)⟩

/-- C1 counterexample: at the table [(0,10),(1,5)] in absolute mode with the
default threshold 0.01, the change of row 1 is -5, which is non-zero and at
least 0.01 in absolute value, yet the row is dropped: the source compares
the signed change, so the claimed absolute-value retention condition is
false. -/
theorem threshold_sampling_abs_claim_false :
    rowChange [((0 : Nat), (10 : ℚ)), (1, 5)] "absolute" 1 = -5
    ∧ ((1 : ℚ) / 100 ≤ |(-5 : ℚ)| ∧ (-5 : ℚ) ≠ 0)
    ∧ ((1 : Nat), (5 : ℚ))
        ∉ threshold_sampling [((0 : Nat), (10 : ℚ)), (1, 5)] "absolute" (1 / 100) := by
  refine ⟨?_, ⟨?_, ?_⟩, ?_⟩
  · norm_num [rowChange]
    decide
  · rw [abs_of_nonpos (by norm_num)]
    norm_num
  · norm_num
  · norm_num [threshold_sampling, changesOf, diff_changes, pct_changes,
      List.filter, List.filterMap]

/-- C2 counterexample: in the spec's worked example (relative accumulated
threshold 2 on values 10.0, 10.05, 10.5, 11.0), row t3 is not retained:
its change against the baseline 10.5 is about 4.76 percent, which rounds to
0.0 at one decimal before the comparison with 2. -/
theorem accumulated_sampling_example_t3_not_retained :
    ((3 : Nat), (11 : ℚ)) ∉ accumulated_sampling
      [((0 : Nat), (10 : ℚ)), (1, 201 / 20), (2, 21 / 2), (3, 11)] "relative" 2 := by
  norm_num [accumulated_sampling, acc_condition, CondVal.ge, round1,
    abs_eq_max_neg, max_def, List.filterMap]

/-- C2 (amended): the Accumulated Sampler in relative mode with threshold 2
on [(t0,10.0),(t1,10.05),(t2,10.5),(t3,11.0)] retains exactly the rows t0
and t2: the per-row change against the last retained baseline is the
relative change, taken in absolute value, rounded to one decimal place and
multiplied by 100 before the comparison, so t1 (0.5 percent, rounds to 0)
and t3 (about 4.76 percent against the new baseline t2, rounds to 0) fail
while t2 (5 percent, rounds to 10 after scaling) passes. -/
theorem accumulated_sampling_example_eval :
    accumulated_sampling
      [((0 : Nat), (10 : ℚ)), (1, 201 / 20), (2, 21 / 2), (3, 11)] "relative" 2
      = [(0, 10), (2, 21 / 2)] := by
  norm_num [accumulated_sampling, acc_condition, CondVal.ge, round1,
    abs_eq_max_neg, max_def, List.filterMap]

/-- Appending-only folds preserve the members of the accumulator. -/
theorem mem_foldl_step {α : Type} (P : List α → α → Prop)
    [inst : ∀ acc a, Decidable (P acc a)] (l : List α)
    (acc : List α) (x : α) (hx : x ∈ acc) :
    x ∈ l.foldl (fun acc a => if P acc a then acc ++ [a] else acc) acc := by
  induction l generalizing acc with
  | nil => exact hx
  | cons a u ih =>
    simp only [List.foldl_cons]
    apply ih
    split
    · exact List.mem_append_left _ hx
    · exact hx

/-- C3: for every non-empty input, every mode and every threshold, row 0 of
the input is present unmodified in the output of the Accumulated Sampler. -/
theorem accumulated_sampling_seed_invariant (df : List Row) (change : String)
    (t : ℚ) (h : df ≠ []) :
    df.head h ∈ accumulated_sampling df change t := by
  rcases df with _ | ⟨r0, tl⟩
  · exact absurd rfl h
  · simp only [accumulated_sampling, List.head_cons]
    rw [List.mem_flatMap]
    refine ⟨r0, List.mem_cons_self r0 tl, ?_⟩
    rw [List.mem_filterMap]
    refine ⟨r0, ?_, ?_⟩
    · exact mem_foldl_step _ _ _ _ (List.mem_singleton.mpr rfl)
    · rw [if_pos rfl]

/-- C3 witness: the head of a concrete two-row table is in the output. -/
theorem accumulated_sampling_seed_invariant_witness :
    (([((0 : Nat), (3 : ℚ)), (1, 7)] : List Row) ≠ [])
    ∧ ([((0 : Nat), (3 : ℚ)), (1, 7)] : List Row).head (by decide)
        ∈ accumulated_sampling [((0 : Nat), (3 : ℚ)), (1, 7)] "relative" 50 :=
  ⟨by decide,
    accumulated_sampling_seed_invariant [((0 : Nat), (3 : ℚ)), (1, 7)] "relative"
      50 (by decide)⟩

/-- Rounding to one decimal keeps nonnegative inputs nonnegative. -/
theorem round1_nonneg (x : ℚ) (hx : 0 ≤ x) : (0 : ℚ) ≤ round1 x := by
  unfold round1
  apply div_nonneg _ (by norm_num)
  have h2 : (0 : ℤ) ≤ ⌊x * 10 + 1 / 2⌋ := by
    apply Int.le_floor.mpr
    push_cast
    linarith
  exact_mod_cast h2

/-- Against a non-zero baseline the loop comparison value of the Accumulated
Sampler passes the threshold 0: it is a finite rounded absolute value
(scaled by 100 in relative mode), never NaN. -/
theorem acc_condition_ge_zero (change : String) (a b : ℚ) (ha : a ≠ 0) :
    (acc_condition change a b).ge 0 = true := by
  unfold acc_condition
  by_cases hch : change = "relative"
  · rw [if_pos hch, if_neg ha]
    simp only [CondVal.ge, decide_eq_true_eq]
    exact mul_nonneg (round1_nonneg _ (abs_nonneg _)) (by norm_num)
  · rw [if_neg hch]
    simp only [CondVal.ge, decide_eq_true_eq]
    exact round1_nonneg _ (abs_nonneg _)

/-- With threshold 0 and non-zero values, every loop step of the Accumulated
Sampler appends its row, so the fold appends the whole table to the seed. -/
theorem foldl_acc_all (change : String) (l : List Row) (acc : List Row)
    (hl : ∀ r ∈ l, r.2 ≠ 0) (hacc : (acc.getLastD (0, 0)).2 ≠ 0) :
    l.foldl (fun acc row =>
      if (acc_condition change ((acc.getLastD (0, 0)).2) row.2).ge 0
      then acc ++ [row] else acc) acc = acc ++ l := by
  induction l generalizing acc with
  | nil => simp
  | cons a u ih =>
    have hstep :
        (if (acc_condition change ((acc.getLastD (0, 0)).2) a.2).ge 0
          then acc ++ [a] else acc) = acc ++ [a] := by
      rw [acc_condition_ge_zero change _ _ hacc]
      rfl
    have hu : ∀ r ∈ u, r.2 ≠ 0 := fun r hr => hl r (List.mem_cons_of_mem a hr)
    have hlast : ((acc ++ [a]).getLastD (0, 0)).2 ≠ 0 := by
      rw [List.getLastD_concat]
      exact hl a (List.mem_cons_self a u)
    rw [List.foldl_cons, hstep, ih (acc ++ [a]) hu hlast]
    simp

/-- The timestamp join finds nothing in a list free of the timestamp. -/
theorem filterMap_timestamp_nomatch (t : Nat) (l : List Row)
    (hl : ∀ r ∈ l, r.1 ≠ t) :
    l.filterMap (fun r' => if r'.1 = t then some (t, r'.2) else none) = [] := by
  induction l with
  | nil => rfl
  | cons a u ih =>
    have ha : (if a.1 = t then some (t, a.2) else none) = (none : Option Row) :=
      if_neg (hl a (List.mem_cons_self a u))
    rw [List.filterMap_cons, ha]
    exact ih (fun r hr => hl r (List.mem_cons_of_mem a hr))

/-- Over a list with distinct timestamps, the timestamp join of a member row
finds exactly that row. -/
theorem filterMap_timestamp_single (l : List Row) (hnd : (l.map Prod.fst).Nodup)
    (r : Row) (hr : r ∈ l) :
    l.filterMap (fun r' => if r'.1 = r.1 then some (r.1, r'.2) else none) = [r] := by
  induction l with
  | nil => cases hr
  | cons a u ih =>
    have hnd' : (a.1 :: u.map Prod.fst).Nodup := by simpa using hnd
    rcases List.mem_cons.mp hr with rfl | hru
    · rw [List.filterMap_cons, if_pos rfl]
      have hu : ∀ x ∈ u, x.1 ≠ r.1 := by
        intro x hx hx1
        exact (List.nodup_cons.mp hnd').1 (hx1 ▸ List.mem_map_of_mem Prod.fst hx)
      rw [filterMap_timestamp_nomatch r.1 u hu]
    · have ha : a.1 ≠ r.1 := by
        intro he
        exact (List.nodup_cons.mp hnd').1 (he ▸ List.mem_map_of_mem Prod.fst hru)
      have ha' : (if a.1 = r.1 then some (r.1, a.2) else none) = (none : Option Row) :=
        if_neg ha
      rw [List.filterMap_cons, ha']
      exact ih (by simpa using (List.nodup_cons.mp hnd').2) hru

/-- A flat map whose pieces are the singletons of the members is the
identity. -/
theorem flatMap_singleton_eq {α : Type} (l : List α) (g : α → List α)
    (h : ∀ r ∈ l, g r = [r]) : l.flatMap g = l := by
  induction l with
  | nil => rfl
  | cons a u ih =>
    rw [List.flatMap_cons, h a (List.mem_cons_self a u)]
    rw [ih (fun r hr => h r (List.mem_cons_of_mem a hr))]
    rfl

/-- C10 (amended): with threshold 0, on a table with distinct timestamps
whose values are all non-zero (so the relative change is never the NaN of a
0/0 division), every row passes the retention condition of the Accumulated
Sampler, row 0 is appended both as the seed and again in the first loop
iteration, and the joined output is the input with its first row
duplicated: row 0's timestamp occurs exactly twice. -/
theorem accumulated_sampling_zero_threshold_duplicates (df : List Row)
    (change : String) (h : df ≠ []) (hnd : (df.map Prod.fst).Nodup)
    (hnz : ∀ r ∈ df, r.2 ≠ 0) :
    accumulated_sampling df change 0 = df.head h :: df
    ∧ (accumulated_sampling df change 0).countP
        (fun r => decide (r.1 = (df.head h).1)) = 2 := by
  rcases df with _ | ⟨r0, tl⟩
  · exact absurd rfl h
  have hnd' : (r0.1 :: tl.map Prod.fst).Nodup := by simpa using hnd
  have htl : ∀ x ∈ tl, x.1 ≠ r0.1 := by
    intro x hx hx1
    exact (List.nodup_cons.mp hnd').1 (hx1 ▸ List.mem_map_of_mem Prod.fst hx)
  have heq : accumulated_sampling (r0 :: tl) change 0 = r0 :: r0 :: tl := by
    simp only [accumulated_sampling]
    rw [foldl_acc_all change (r0 :: tl) [r0] hnz
      (hnz r0 (List.mem_cons_self r0 tl))]
    have hsplit : ([r0] ++ r0 :: tl) = ([r0, r0] ++ tl) := rfl
    rw [hsplit, List.flatMap_cons]
    have hg0 : ([r0, r0] ++ tl).filterMap
        (fun r' => if r'.1 = r0.1 then some (r0.1, r'.2) else none) = [r0, r0] := by
      rw [List.filterMap_append, filterMap_timestamp_nomatch r0.1 tl htl]
      simp
    have hgr : ∀ r ∈ tl, ([r0, r0] ++ tl).filterMap
        (fun r' => if r'.1 = r.1 then some (r.1, r'.2) else none) = [r] := by
      intro r hr
      rw [List.filterMap_append]
      have hhead : ∀ x ∈ [r0, r0], x.1 ≠ r.1 := by
        intro x hx
        rcases List.mem_cons.mp hx with rfl | hx2
        · exact fun he => htl r hr he.symm
        · rcases List.mem_cons.mp hx2 with rfl | hx3
          · exact fun he => htl r hr he.symm
          · cases hx3
      rw [filterMap_timestamp_nomatch r.1 [r0, r0] hhead]
      rw [filterMap_timestamp_single tl (by simpa using (List.nodup_cons.mp hnd').2) r hr]
      rfl
    rw [hg0, flatMap_singleton_eq tl _ hgr]
    rfl
  refine ⟨by simpa using heq, ?_⟩
  rw [heq]
  simp only [List.head_cons, List.countP_cons]
  have hz : tl.countP (fun r => decide (r.1 = r0.1)) = 0 := by
    rw [List.countP_eq_zero]
    intro a ha
    simpa using htl a ha
  simp [hz]

/-- C10 witness: the two-row table [(0,2),(1,3)] with threshold 0 comes back
with row 0 duplicated. -/
theorem accumulated_sampling_zero_threshold_duplicates_witness :
    (([((0 : Nat), (2 : ℚ)), (1, 3)] : List Row) ≠ []
      ∧ (([((0 : Nat), (2 : ℚ)), (1, 3)] : List Row).map Prod.fst).Nodup
      ∧ (∀ r ∈ ([((0 : Nat), (2 : ℚ)), (1, 3)] : List Row), r.2 ≠ 0))
    ∧ accumulated_sampling [((0 : Nat), (2 : ℚ)), (1, 3)] "absolute" 0
        = ([((0 : Nat), (2 : ℚ)), (1, 3)] : List Row).head (by decide)
            :: [((0 : Nat), (2 : ℚ)), (1, 3)]
    ∧ (accumulated_sampling [((0 : Nat), (2 : ℚ)), (1, 3)] "absolute" 0).countP
        (fun r => decide (r.1
          = (([((0 : Nat), (2 : ℚ)), (1, 3)] : List Row).head (by decide)).1)) = 2 :=
  by
  have hnz : ∀ r ∈ ([((0 : Nat), (2 : ℚ)), (1, 3)] : List Row), r.2 ≠ 0 := by
    intro r hr
    fin_cases hr <;> norm_num
  have main := accumulated_sampling_zero_threshold_duplicates
    [((0 : Nat), (2 : ℚ)), (1, 3)] "absolute" (by decide) (by decide) hnz
  exact ⟨⟨by decide, by decide, hnz⟩, main.1, main.2⟩

/-- C10 counterexample: the claim fails on the all-zero two-row table in
relative mode.  There `pct_change` divides 0 by 0 and the comparison value
is NaN, which the IEEE comparison `NaN >= 0` rejects, so row 0 is NOT
re-appended in the first loop iteration, row 1 is dropped too, and the
output holds row 0's timestamp exactly once instead of twice. -/
theorem accumulated_sampling_zero_values_no_duplicate :
    accumulated_sampling [((0 : Nat), (0 : ℚ)), (1, 0)] "relative" 0
      = [(0, 0)]
    ∧ (accumulated_sampling [((0 : Nat), (0 : ℚ)), (1, 0)] "relative" 0).countP
        (fun r => decide (r.1 = 0)) = 1 := by
  constructor
  · norm_num [accumulated_sampling, acc_condition, CondVal.ge, List.filterMap]
  · norm_num [accumulated_sampling, acc_condition, CondVal.ge, List.filterMap,
      List.countP_cons]

/-- C5 counterexample: on a table with exactly two qualifying rows for
object A, the final status is the counted message, not the single-growth
message: the even-length branch runs after the two-row branch and
overwrites `grow` (and `value_counts()[0]` is the count 2, not the number
of growths). -/
theorem growth_time_single_growth_counterexample :
    (growth_time [(0, ("PDI", "A moved from GC_manip to MC_manip", "red")),
        (1, ("PDI", "A moved from MC_manip to GC_manip", "red"))]).map
      (fun g => g.grow) = Except.ok "2 growths detected with the names A."
    ∧ "2 growths detected with the names A." ≠ singleGrowthMsg :=
  ⟨rfl, by decide⟩

/-- C5 (amended): for a growth event table with exactly two qualifying
"moved from X to Y" rows, both for object A and none for any other object,
`growth_time` assigns the single-growth status but immediately overwrites it
in the even-length branch, so the final status is "2 growths detected with
the names A." (the leading 2 being `value_counts()[0]`, the occurrence
count); the start/end reported are the timestamps of rows 0 and 1 (by both
branches, hence twice). -/
theorem growth_time_single_growth_final_status (t1 t2 : Nat) :
    growth_time [(t1, ("c", "A moved from GC_manip to MC_manip", "b")),
      (t2, ("c", "A moved from MC_manip to GC_manip", "b"))]
    = Except.ok ⟨[(t1, "A", "GC_manip", "MC_manip"), (t2, "A", "MC_manip", "GC_manip")],
        "2 growths detected with the names A.", [(t1, t2), (t1, t2)]⟩ := by
  have h1 : hasSubstr "A moved from GC_manip to MC_manip" "moved from" = true := rfl
  have h1' : hasSubstr "A moved from MC_manip to GC_manip" "moved from" = true := rfl
  have h2 : hasSubstr "A moved from GC_manip to MC_manip" "Mirror" = false := rfl
  have h2' : hasSubstr "A moved from MC_manip to GC_manip" "Mirror" = false := rfl
  have h3 : splitObjectFromTo "A moved from GC_manip to MC_manip"
      = ("A", "GC_manip", "MC_manip") := rfl
  have h3' : splitObjectFromTo "A moved from MC_manip to GC_manip"
      = ("A", "MC_manip", "GC_manip") := rfl
  have h4 : value_counts ["A", "A"] = [("A", 2)] := rfl
  have h5 : multiGrowthMsg [("A", 2)] = "2 growths detected with the names A." := rfl
  simp [growth_time, h1, h1', h2, h2', h3, h3', h4, h5, pairBoundaries]

/-- C4 counterexample: with one qualifying row for object A and two for
object B, the status is the duplicate-name error, not the unmatched-counts
error: the inner check fires as soon as any object's count exceeds 1, which
B's legitimate start/end pair does. -/
theorem growth_time_odd_count_counterexample :
    (growth_time [(0, ("c", "A moved from X_loc to Y_loc", "b")),
        (1, ("c", "B moved from X_loc to Y_loc", "b")),
        (2, ("c", "B moved from Y_loc to X_loc", "b"))]).map
      (fun g => g.grow) = Except.ok dupNameMsg
    ∧ dupNameMsg ≠ unmatchedMsg :=
  ⟨rfl, by decide⟩

/-- C4 (amended): for a growth event table with exactly one qualifying
transition row for object A and exactly two for object B and no other
objects, the resulting status is the duplicate-name error (the count > 1
check sees B's pair), not the unmatched start/end counts error. -/
theorem growth_time_odd_count_duplicate_error (tA tB1 tB2 : Nat) :
    (growth_time [(tA, ("c", "A moved from X_loc to Y_loc", "b")),
        (tB1, ("c", "B moved from X_loc to Y_loc", "b")),
        (tB2, ("c", "B moved from Y_loc to X_loc", "b"))]).map
      (fun g => g.grow) = Except.ok dupNameMsg := by
  have h1 : hasSubstr "A moved from X_loc to Y_loc" "moved from" = true := rfl
  have h1' : hasSubstr "B moved from X_loc to Y_loc" "moved from" = true := rfl
  have h1'' : hasSubstr "B moved from Y_loc to X_loc" "moved from" = true := rfl
  have h2 : hasSubstr "A moved from X_loc to Y_loc" "Mirror" = false := rfl
  have h2' : hasSubstr "B moved from X_loc to Y_loc" "Mirror" = false := rfl
  have h2'' : hasSubstr "B moved from Y_loc to X_loc" "Mirror" = false := rfl
  have h3 : splitObjectFromTo "A moved from X_loc to Y_loc"
      = ("A", "X_loc", "Y_loc") := rfl
  have h3' : splitObjectFromTo "B moved from X_loc to Y_loc"
      = ("B", "X_loc", "Y_loc") := rfl
  have h3'' : splitObjectFromTo "B moved from Y_loc to X_loc"
      = ("B", "Y_loc", "X_loc") := rfl
  have h4 : value_counts ["A", "B", "B"] = [("B", 2), ("A", 1)] := rfl
  simp [growth_time, h1, h1', h1'', h2, h2', h2'', h3, h3', h3'', h4, Except.map]

/-- C6: a categorical event table with no message containing "moved from"
makes `growth_time` raise (the final `print(df.grow)` reads an attribute no
branch assigned), while a table whose only "moved from" rows mention the
Mirror fixture terminates normally with the no-growth status: the claimed
error-free handling holds only for the second case. -/
theorem growth_time_no_moved_from_raises :
    growth_time [(0, ("PDI", "Shutter opened", "red"))] = Except.error attrErrMsg
    ∧ (growth_time [(0, ("PDI", "Mirror moved from GC_manip to MC_manip", "red"))]).map
        (fun g => g.grow) = Except.ok noGrowthMsg :=
  ⟨rfl, rfl⟩

/-- The change-based sampling step replaces only the numeric payload: the
column names survive (the source renames suffixes back after sampling). -/
theorem diff_sample_cols (p v : ℚ) (s : Series) :
    (diff_sample p v s).cols = s.cols := by
  simp only [diff_sample]
  repeat' split
  all_goals rfl

/-- C9: in the default change-based mode, the Threshold Sampler stage always
runs with its default threshold 1/100 = 0.01, for pressure-like and for
temperature-like series alike, and the user-supplied percent_cut and
value_cut reach only the Accumulated Sampler stage. -/
theorem resampling_default_threshold (s : Series) (percent_cut value_cut : ℚ)
    (hlen : s.cols.length < 3) :
    (pressure_like s.cols = true → temperature_like s.cols = false →
      (diff_sample percent_cut value_cut s).data
        = accumulated_sampling (threshold_sampling s.data "relative" (1 / 100))
            "relative" percent_cut)
    ∧ (temperature_like s.cols = true → pressure_like s.cols = false →
      (diff_sample percent_cut value_cut s).data
        = accumulated_sampling (threshold_sampling s.data "absolute" (1 / 100))
            "absolute" value_cut)
    ∧ (pressure_like s.cols = true → temperature_like s.cols = true →
      (diff_sample percent_cut value_cut s).data
        = accumulated_sampling (threshold_sampling
            (accumulated_sampling (threshold_sampling s.data "relative" (1 / 100))
              "relative" percent_cut) "absolute" (1 / 100)) "absolute" value_cut) := by
  refine ⟨?_, ?_, ?_⟩ <;> intro ha hb <;> simp [diff_sample, hlen, ha, hb]

/-- C9 witness: a one-column pressure-like series. -/
theorem resampling_default_threshold_witness :
    (Series.mk ["IG_pressure"] [] [] none "c" "n").cols.length < 3
    ∧ (pressure_like (Series.mk ["IG_pressure"] [] [] none "c" "n").cols = true →
        temperature_like (Series.mk ["IG_pressure"] [] [] none "c" "n").cols = false →
        (diff_sample 5 7 (Series.mk ["IG_pressure"] [] [] none "c" "n")).data
          = accumulated_sampling
              (threshold_sampling (Series.mk ["IG_pressure"] [] [] none "c" "n").data
                "relative" (1 / 100)) "relative" 5) :=
  ⟨by decide,
    (resampling_default_threshold (Series.mk ["IG_pressure"] [] [] none "c" "n")
      5 7 (by decide)).1⟩

/-- The last element of a non-empty list, with any default. -/
theorem getLastD_mem_of_ne_nil {α : Type} (l : List α) (d : α) (h : l ≠ []) :
    l.getLastD d ∈ l := by
  rcases l with _ | ⟨a, t⟩
  · exact absurd rfl h
  · rw [List.getLastD_cons]
    exact List.getLastD_mem_cons t a

/-- Replacing an element whose columns stay message-free preserves the
message-free property of a series list. -/
theorem no_message_preserved (l : List Series)
    (hnm : ∀ s ∈ l, has_message_col s.cols = false)
    (i : Nat) (s' : Series) (hcols : has_message_col s'.cols = false) :
    ∀ s ∈ l.set i s', has_message_col s.cols = false := by
  intro s hs
  rcases List.mem_or_eq_of_mem_set hs with h | rfl
  · exact hnm s h
  · exact hcols

/-- Loop invariant for C7: when every series of the list lacks a
message-like column, every iteration of `resampling` takes the diagnostic
branch, the loop never fails, the length is preserved, and the last series
of the result carries the no-message diagnostic in `grow`. -/
theorem resampling_go_no_message (p v : ℚ) :
    ∀ (fuel : Nat) (l : List Series) (i : Nat),
      l.length = i + fuel → i < l.length →
      (∀ s ∈ l, has_message_col s.cols = false) →
      ∃ l', resampling_go p v fuel l i = Except.ok l'
        ∧ l'.length = l.length
        ∧ l'.getLast?.map Series.grow = some (some noMessageMsg) := by
  intro fuel
  induction fuel with
  | zero =>
    intro l i hlen hi _
    omega
  | succ n ih =>
    intro l i hlen hi hnm
    have hs1cols : has_message_col (diff_sample p v l[i]).cols = false := by
      rw [diff_sample_cols]
      exact hnm _ (l.getElem_mem hi)
    simp only [resampling_go, dif_pos hi, hs1cols, Bool.false_eq_true, if_false]
    set A := diff_sample p v l[i] with hA
    set l1 := l.set i A with hl1
    set sl := { l1.getLastD A with grow := some noMessageMsg } with hsl
    set l2 := l1.set (l1.length - 1) sl with hl2
    set rest := { l2.getD i A with comment := l[i].comment, name := l[i].name } with hrest
    set L3 := l2.set i rest with hL3
    have hlen1 : l1.length = l.length := by simp [hl1]
    have hlen2 : l2.length = l.length := by simp [hl2, hlen1]
    have hlen3 : L3.length = l.length := by simp [hL3, hlen2]
    have hnm1 : ∀ s ∈ l1, has_message_col s.cols = false :=
      no_message_preserved l hnm i A hs1cols
    have hslcols : has_message_col sl.cols = false := by
      have hne1 : l1 ≠ [] := by
        intro hx
        rw [hx] at hlen1
        simp at hlen1
        omega
      have hmem := hnm1 (l1.getLastD A) (getLastD_mem_of_ne_nil l1 A hne1)
      exact hmem
    have hnm2 : ∀ s ∈ l2, has_message_col s.cols = false :=
      no_message_preserved l1 hnm1 _ sl hslcols
    have hrestcols : has_message_col rest.cols = false := by
      have hi2 : i < l2.length := by omega
      have hgd : l2.getD i A = l2[i] := by
        rw [List.getD_eq_getElem?_getD, List.getElem?_eq_getElem hi2]
        rfl
      show has_message_col (l2.getD i A).cols = false
      rw [hgd]
      exact hnm2 _ (l2.getElem_mem hi2)
    have hnm3 : ∀ s ∈ L3, has_message_col s.cols = false :=
      no_message_preserved l2 hnm2 i rest hrestcols
    by_cases hlast : i + 1 < l.length
    · have hlen3' : L3.length = (i + 1) + n := by omega
      obtain ⟨l', h1, h2, h3⟩ := ih L3 (i + 1) hlen3' (by omega) hnm3
      exact ⟨l', h1, by rw [h2, hlen3], h3⟩
    · have hn : n = 0 := by omega
      subst hn
      refine ⟨L3, by simp [resampling_go], hlen3, ?_⟩
      have hieq : l1.length - 1 = i := by omega
      have hi2 : i < l2.length := by omega
      have hgd : l2.getD i A = sl := by
        rw [List.getD_eq_getElem?_getD]
        rw [hl2, hieq, List.getElem?_set_self (by omega)]
        rfl
      have hrgrow : rest.grow = some noMessageMsg := by
        rw [hrest, hgd]
      have hlast3 : L3.getLast? = some rest := by
        rw [List.getLast?_eq_getElem?, hlen3]
        have : l.length - 1 = i := by omega
        rw [this, hL3, List.getElem?_set_self (by omega)]
      rw [hlast3]
      show some rest.grow = some (some noMessageMsg)
      rw [hrgrow]

/-- C7 (amended): when no series carries a message-like column, every
iteration of `resampling` prints the diagnostic and attaches it to the LAST
series of the list (`dataframe_list[-1]`), not to the series being
processed; the loop finishes without a fatal error and preserves the list
length. -/
theorem resampling_no_message_last_series (l : List Series) (p v : ℚ)
    (hne : l ≠ [])
    (hnm : ∀ s ∈ l, has_message_col s.cols = false) :
    ∃ l', resampling l p v = Except.ok l'
      ∧ l'.length = l.length
      ∧ l'.getLast?.map Series.grow = some (some noMessageMsg) := by
  unfold resampling
  exact resampling_go_no_message p v l.length l 0 (by omega)
    (List.length_pos.mpr hne) hnm

/-- C7 witness: a concrete two-series list without message columns. -/
theorem resampling_no_message_last_series_witness :
    (([Series.mk ["Foo"] [] [] none "ca" "na",
        Series.mk ["Bar"] [] [] none "cb" "nb"] : List Series) ≠ []
      ∧ (∀ s ∈ ([Series.mk ["Foo"] [] [] none "ca" "na",
          Series.mk ["Bar"] [] [] none "cb" "nb"] : List Series),
          has_message_col s.cols = false))
    ∧ ∃ l', resampling [Series.mk ["Foo"] [] [] none "ca" "na",
          Series.mk ["Bar"] [] [] none "cb" "nb"] 1 1 = Except.ok l'
        ∧ l'.length = 2
        ∧ l'.getLast?.map Series.grow = some (some noMessageMsg) :=
  ⟨⟨by decide, by decide⟩,
    resampling_no_message_last_series
      [Series.mk ["Foo"] [] [] none "ca" "na",
        Series.mk ["Bar"] [] [] none "cb" "nb"] 1 1 (by decide) (by decide)⟩

/-- C7 counterexample: with two message-free series, the diagnostic ends up
on the last series while the series actually being processed (index 0, the
first without a message column) keeps `grow = none`: the claim that the
diagnostic is attached to the processed series is false. -/
theorem resampling_no_message_counterexample :
    resampling [Series.mk ["Foo"] [] [] none "ca" "na",
        Series.mk ["Bar"] [] [] none "cb" "nb"] 1 1
      = Except.ok [Series.mk ["Foo"] [] [] none "ca" "na",
          Series.mk ["Bar"] [] [] (some noMessageMsg) "cb" "nb"]
    ∧ (Series.mk ["Foo"] [] [] none "ca" "na").grow ≠ some noMessageMsg :=
  ⟨rfl, by simp⟩
